import Mathlib

/-!
Shallow embedding of the task-to-pull-request orchestration pipeline of the
AzureDevOps_SWE_Agent repository (src/azure_devops_agent), covering
`TaskProcessor`, `Orchestrator`, `ImplementationManager` and `PRManager`.
External collaborators (Azure DevOps REST client, git binary, AI code
generation, filesystem) are modelled as environments of `Except`-valued
oracles; every invocation of a collaborator is recorded in an effect trace.
Python strings are modelled as Lean `String` (lists of code points, matching
Python's code-point indexing and slicing).
-/

/-! ## Python string primitives -/

/-- Python slicing `s[:n]` (by code points). -/
def pyTake (n : Nat) (s : String) : String := String.mk (s.data.take n)

/-- Python `len(s)` (code points). -/
def pyLen (s : String) : Nat := s.data.length

/-- Python `s.lower()` restricted to ASCII case mapping (all strings handled
by the pipeline are ASCII). -/
def pyLower (s : String) : String := String.mk (s.data.map Char.toLower)

/-- Whether `needle` occurs as a contiguous substring of `hay`
(Python `needle in hay`). -/
def listHasSub (needle : List Char) : List Char → Bool
  | [] => needle.isEmpty
  | c :: rest => needle.isPrefixOf (c :: rest) || listHasSub needle rest

/-- Python `needle in hay` for strings. -/
def pyContains (hay needle : String) : Bool := listHasSub needle.data hay.data

/-- Python `s.capitalize()`: first character upper-cased, the rest
lower-cased (ASCII). -/
def pyCapitalize (s : String) : String :=
  match s.data with
  | [] => ""
  | c :: rest => String.mk (c.toUpper :: rest.map Char.toLower)

/-- `os.path.basename` on a POSIX path: the part after the last `/`. -/
def pyBasename (p : String) : String :=
  String.mk ((p.data.reverse.takeWhile (· ≠ '/')).reverse)

/-- `os.path.dirname` on a POSIX path: the part before the last `/`
(empty when there is no `/`). -/
def pyDirname (p : String) : String :=
  let rev := p.data.reverse
  if rev.contains '/' then
    String.mk (((rev.dropWhile (· ≠ '/')).drop 1).reverse)
  else ""

/-- The index of the last `.` in a list of characters, if any. -/
def lastDotIdx (b : List Char) : Option Nat :=
  (List.range b.length).reverse.find? (fun i => b.get? i = some '.')

/-- `os.path.splitext` on a path component (no `/` inside): splits at the
last dot unless every character before that dot is itself a dot (so
`.bashrc` has no extension).  Returns (root, extension-with-dot). -/
def pySplitextBase (b : String) : String × String :=
  match lastDotIdx b.data with
  | none => (b, "")
  | some i =>
    if (b.data.take i).all (· = '.') then (b, "")
    else (String.mk (b.data.take i), String.mk (b.data.drop i))

/-- `os.path.splitext(p)[1][1:].lower()`: the extension of a path, without
the dot, lower-cased — as computed in
`ImplementationManager._determine_files_to_modify` (lines 169, 174). -/
def pyExtLower (p : String) : String :=
  String.mk (((pySplitextBase (pyBasename p)).2.data.drop 1).map Char.toLower)

/-- `os.path.join(dir, x)` for the relative paths this pipeline builds. -/
def pyJoin (dir x : String) : String :=
  if dir = "" then x
  else if dir.data.getLast? = some '/' then dir ++ x
  else dir ++ "/" ++ x

/-- Python `int(s)` for the decimal literals this pipeline passes
(`int(task_id)` in `PRManager.create_pull_request`); `none` models the
`ValueError` raised on a non-numeric id. -/
def pyInt (s : String) : Option Int := s.toInt?

/-! ## The two candidate-file regular expressions of
`TaskProcessor._analyze_requirements` (task_processor.py lines 99-102),
embedded as direct backtracking scanners with Python `re.findall`
semantics (leftmost, non-overlapping, greedy with backtracking). -/

/-- The character class `[a-zA-Z0-9_\-./\\]`. -/
def isPathChar (c : Char) : Bool :=
  c.isAlphanum || c = '_' || c = '-' || c = '.' || c = '/' || c = '\\'

/-- A word character for `\b` (`[a-zA-Z0-9_]`). -/
def isWordChar (c : Char) : Bool := c.isAlphanum || c = '_'

/-- Python `\s` (ASCII): space, tab, newline, carriage return, vertical
tab, form feed. -/
def isPySpace (c : Char) : Bool :=
  c = ' ' || c = '\t' || c = '\n' || c = '\r' || c = '\x0b' || c = '\x0c'

/-- The class `[:\s]` of pattern 1's separator. -/
def isSepChar (c : Char) : Bool := c = ':' || isPySpace c

/-- First `some` value of `f` over a list of candidates, in order — the
backtracking search order of a greedy quantifier. -/
def firstSome {α : Type} (f : Nat → Option α) : List Nat → Option α
  | [] => none
  | n :: ns => match f n with | some a => some a | none => firstSome f ns

/-- `n` letters (`[a-zA-Z]`) at position `i` of `cs`. -/
def lettersAt (cs : List Char) (i n : Nat) : Bool :=
  ((cs.drop i).take n).length = n && ((cs.drop i).take n).all (·.isAlpha)

/-- `n` alphanumeric characters at position `i` of `cs`. -/
def alnumAt (cs : List Char) (i n : Nat) : Bool :=
  ((cs.drop i).take n).length = n && ((cs.drop i).take n).all (·.isAlphanum)

/-- `\b` after position `i`: the character at `i` (if any) is not a word
character (the character before is always a letter where this is used). -/
def boundaryAfter (cs : List Char) (i : Nat) : Bool :=
  match cs.get? i with
  | none => true
  | some c => !isWordChar c

/-- Match of pattern 2, `([a-zA-Z0-9_\-./\\]+\.[a-zA-Z]{1,5})\b(?:\s+file)?`,
anchored at the start of `cs`: returns the captured group and the number of
characters the whole match consumes.  The greedy `+` tries the longest
path-character prefix first (descending `aLen`), then the greedy `{1,5}`
tries five letters down to one. -/
def p2At (cs : List Char) : Option (String × Nat) :=
  let run := cs.takeWhile isPathChar
  firstSome (fun aLen =>
    if 1 ≤ aLen ∧ run.get? aLen = some '.' then
      firstSome (fun bLen =>
        if lettersAt cs (aLen + 1) bLen ∧ boundaryAfter cs (aLen + 1 + bLen) then
          let stop := aLen + 1 + bLen
          -- the optional `(?:\s+file)?` extends what the match consumes
          let spaces := ((cs.drop stop).takeWhile isPySpace).length
          let tail :=
            if 1 ≤ spaces ∧ ['f', 'i', 'l', 'e'].isPrefixOf (cs.drop (stop + spaces))
            then spaces + 4 else 0
          some (String.mk (cs.take stop), stop + tail)
        else none) [5, 4, 3, 2, 1]
    else none) (List.range run.length).reverse

/-- The alternation `(?:in|modify|update|create|the file|file)` of pattern 1,
in Python's left-to-right order. -/
def p1Keywords : List (List Char) :=
  ["in".data, "modify".data, "update".data, "create".data,
   "the file".data, "file".data]

/-- Match of the tail of pattern 1 after the keyword:
`[:\s]+`?([a-zA-Z0-9_\-./\\]+\.[a-zA-Z0-9]+)`?` anchored at `cs`; returns
the captured group and the characters consumed.  The separator and the two
`+` groups are greedy; the backticks are optional. -/
def p1Tail (cs : List Char) : Option (String × Nat) :=
  let seps := (cs.takeWhile isSepChar).length
  if seps = 0 then none
  else
    let afterSep := cs.drop seps
    let tick := if afterSep.get? 0 = some '`' then 1 else 0
    let body := afterSep.drop tick
    let run := body.takeWhile isPathChar
    (firstSome (fun aLen =>
      if 1 ≤ aLen ∧ run.get? aLen = some '.' then
        let bLen := ((body.drop (aLen + 1)).takeWhile (·.isAlphanum)).length
        if 1 ≤ bLen then
          let stop := aLen + 1 + bLen
          let tick2 := if (body.drop stop).get? 0 = some '`' then 1 else 0
          some (String.mk (body.take stop), seps + tick + stop + tick2)
        else none
      else none) (List.range run.length).reverse)

/-- Match of pattern 1,
`(?:in|modify|update|create|the file|file)[:\s]+`?(…)`?`, anchored at the
start of `cs`: the alternatives are tried in order and the first whose
continuation succeeds wins. -/
def p1At (cs : List Char) : Option (String × Nat) :=
  (p1Keywords.filter (·.isPrefixOf cs)).findSome? (fun kw =>
    (p1Tail (cs.drop kw.length)).map (fun gk => (gk.1, kw.length + gk.2)))

/-- `re.findall` driver: scan left to right; on a match at the current
position, emit the captured group and resume after the whole match;
otherwise advance one character.  `fuel` (the input length) bounds the
recursion; every match consumes at least one character. -/
def reFindAllAux (step : List Char → Option (String × Nat)) :
    Nat → List Char → List String
  | 0, _ => []
  | _ + 1, [] => []
  | fuel + 1, cs =>
    match step cs with
    | some (g, k) => g :: reFindAllAux step fuel (cs.drop (max k 1))
    | none => reFindAllAux step fuel (cs.drop 1)

/-- `re.findall(pattern, text)` for one of the two embedded patterns. -/
def reFindAll (step : List Char → Option (String × Nat)) (text : String) :
    List String :=
  reFindAllAux step text.data.length text.data

/-- `list(set(xs))`: deduplication.  Python's set iteration order is
unspecified; the first-occurrence order stands in for it (the spec notes
the order is not significant downstream). -/
def pySetList (l : List String) : List String := l.eraseDups


/-! ## Task processor (`task_processor.py`) -/

/-- The repository dictionary `extract_task_details` attaches to a work item
(azure_client.py lines 90-121): always a single `url` entry. -/
structure WorkItemRepo where
  url : String
  deriving DecidableEq, Repr

/-- The task-details dictionary built by
`AzureDevOpsClient.extract_task_details`; only the fields the pipeline core
reads are carried.  `repository` is `none` when the work item's fields held
no repository information (the key is absent from the dictionary). -/
structure TaskDetails where
  id : String := ""
  title : String := ""
  description : String := ""
  acceptanceCriteria : String := ""
  repository : Option WorkItemRepo := none
  deriving DecidableEq, Repr

/-- The requirements dictionary of
`TaskProcessor._analyze_requirements` (lines 112-117). -/
structure Requirements where
  filesToModify : List String
  testingRequired : Bool
  descriptionSummary : String
  deriving DecidableEq, Repr

/-- `TaskProcessor._analyze_requirements` (lines 76-120): candidate files
from the two patterns over description + "\n" + acceptance criteria,
deduplicated; testing flag from a case-insensitive "test" substring;
summary `description[:500] + '...'` when `len(description) > 500`. -/
def analyzeRequirements (td : TaskDetails) : Requirements :=
  let textToAnalyze := td.description ++ "\n" ++ td.acceptanceCriteria
  let filesToModify := reFindAll p1At textToAnalyze ++ reFindAll p2At textToAnalyze
  { filesToModify := pySetList filesToModify,
    testingRequired := pyContains (pyLower textToAnalyze) "test",
    descriptionSummary :=
      if pyLen td.description > 500 then pyTake 500 td.description ++ "..."
      else td.description }

def repoMissingMsg : String :=
  "Repository information is missing. Please specify which repository should be modified."

def briefDescriptionMsg : String :=
  "Task description is too brief. Please provide more details about what needs to be implemented."

def acceptanceCriteriaMsg : String :=
  "Acceptance criteria are missing. Please specify how to verify that the task is completed correctly."

/-- `TaskProcessor._check_for_missing_information` (lines 122-151): the three
checks run independently and their messages accumulate.  (The
`requirements` parameter of the source method is never read.) -/
def checkForMissingInformation (td : TaskDetails) : List String :=
  (if td.repository.isNone then [repoMissingMsg] else []) ++
  (if pyLen td.description < 50 then [briefDescriptionMsg] else []) ++
  (if td.acceptanceCriteria = "" then [acceptanceCriteriaMsg] else [])

/-- The single consolidated comment `_request_clarification` posts
(lines 153-167): a header, one bullet per missing item, a footer. -/
def clarificationComment (missingInfo : List String) : String :=
  "I need some clarification before I can implement this task:\n\n" ++
  String.join (missingInfo.map (fun item => "- " ++ item ++ "\n")) ++
  "\nPlease provide this information so I can complete the task."

/-- The repository dictionary handled by the orchestrator.  Each field is an
`Option` marking whether the corresponding key is present in the
dictionary. -/
structure RepoInfo where
  id : Option String := none
  url : Option String := none
  name : Option String := none
  project : Option String := none
  deriving DecidableEq, Repr

/-- `TaskProcessor._determine_repository` (lines 169-187): the returned
dictionary has exactly the keys `url`, `name` and `project` — never `id` —
with `''` defaults and the client's default project. -/
def determineRepository (clientProject : Option String) (td : TaskDetails) : RepoInfo :=
  { id := none,
    url := some ((td.repository.map (·.url)).getD ""),
    name := some "",
    project := clientProject }

/-- One collaborator invocation of a pipeline run, in call order. -/
inductive Effect where
  | addComment (text : String)
  | makeDirs (path : String)
  | cloneRepo (url : String) (path : String)
  | createBranch (name : String)
  | analyzeRepo
  | updateTaskDetails
  | processFile (path : String)
  | generateImpl (path : String)
  | writeFile (path : String)
  | generateTests (path : String)
  | writeTestFile (path : String)
  | gitAdd
  | gitCommit (message : String)
  | gitPush (branch : String) (setUpstream : Bool)
  | createPR (title : String) (description : String)
  deriving DecidableEq, Repr

/-- Result dictionary of `TaskProcessor.process_task` (lines 29-74). -/
structure TPResult where
  status : String
  taskId : String
  missingInformation : List String := []
  taskDetails : Option TaskDetails := none
  requirements : Option Requirements := none
  repository : Option RepoInfo := none
  deriving DecidableEq, Repr

/-- External collaborators of `TaskProcessor`: the work-item fetch
(`get_work_item` + `extract_task_details`) and the comment post
(`add_comment_to_work_item`), each of which may raise. -/
structure TPEnv where
  fetchTask : Except String TaskDetails
  addCommentRes : Except String Unit
  clientProject : Option String := none

/-- `TaskProcessor.process_task` (lines 29-74): fetch, analyze, missing-info
check; on missing information post one consolidated comment and return
status `clarification_requested`; otherwise return the `initialized`
result with details, requirements and repository. -/
def tpProcessTask (env : TPEnv) (taskId : String) :
    Except String TPResult × List Effect :=
  match env.fetchTask with
  | .error e => (.error e, [])
  | .ok td =>
    let requirements := analyzeRequirements td
    let missingInfo := checkForMissingInformation td
    if missingInfo ≠ [] then
      let comment := clarificationComment missingInfo
      match env.addCommentRes with
      | .error e => (.error e, [.addComment comment])
      | .ok _ =>
        (.ok { status := "clarification_requested", taskId := taskId,
               missingInformation := missingInfo }, [.addComment comment])
    else
      let repositoryInfo := determineRepository env.clientProject td
      (.ok { status := "initialized", taskId := taskId, taskDetails := some td,
             requirements := some requirements,
             repository := some repositoryInfo }, [])

/-! ## Implementation manager (`implementation_manager.py`) -/

/-- `LanguageDetector.LANGUAGE_EXTENSIONS` (language_detector.py
lines 20-98): the extension → language table. -/
def languageExtensions : List (String × String) :=
  [("js", "JavaScript"), ("jsx", "JavaScript (React)"), ("ts", "TypeScript"),
   ("tsx", "TypeScript (React)"), ("mjs", "JavaScript (ES Module)"),
   ("cjs", "JavaScript (CommonJS)"),
   ("py", "Python"), ("pyx", "Cython"), ("ipynb", "Jupyter Notebook"),
   ("java", "Java"), ("scala", "Scala"), ("kt", "Kotlin"), ("kts", "Kotlin Script"),
   ("cs", "C#"), ("vb", "Visual Basic .NET"), ("fs", "F#"),
   ("rb", "Ruby"), ("erb", "Ruby (ERB)"), ("php", "PHP"), ("go", "Go"),
   ("rs", "Rust"),
   ("c", "C"), ("cpp", "C++"), ("cc", "C++"), ("h", "C/C++ Header"),
   ("hpp", "C++ Header"), ("swift", "Swift"),
   ("html", "HTML"), ("htm", "HTML"), ("xhtml", "HTML"), ("css", "CSS"),
   ("scss", "SCSS"), ("sass", "Sass"), ("less", "Less"),
   ("json", "JSON"), ("yaml", "YAML"), ("yml", "YAML"), ("xml", "XML"),
   ("toml", "TOML"), ("ini", "INI"), ("conf", "Config"),
   ("sh", "Shell"), ("bash", "Bash"), ("zsh", "Zsh"), ("fish", "Fish"),
   ("ps1", "PowerShell"),
   ("md", "Markdown"), ("sql", "SQL"), ("graphql", "GraphQL"), ("gql", "GraphQL")]

/-- Lookup in `LANGUAGE_EXTENSIONS`. -/
def extLanguage (ext : String) : Option String :=
  (languageExtensions.find? (·.1 == ext)).map (·.2)

/-- Result of `ImplementationManager._analyze_repository` (lines 89-132).
The detectors are external collaborators; `codeStyle` stands for the opaque
style dictionary they produce and is passed through unchanged. -/
structure RepoAnalysis where
  languages : List (String × Nat) := []
  primaryLanguage : Option String := none
  frameworks : List (String × Nat) := []
  codeStyle : String := ""
  deriving DecidableEq, Repr

/-- A `file_info` dictionary of `_determine_files_to_modify`
(lines 155-181).  `language = none` models the `language` key being absent
(its access raises KeyError); `language = some none` models the key being
present with Python `None`. -/
structure FileInfo where
  path : String
  fullPath : String
  existsInTree : Bool
  action : String
  existingContent : Option String := none
  language : Option (Option String) := none
  deriving DecidableEq, Repr

/-- A per-file result dictionary of `_implement_file_changes`
(lines 233-250). -/
structure FileChangeResult where
  status : String
  file : String
  language : Option String := none
  action : String := ""
  implementation : Option String := none
  error : Option String := none
  deriving DecidableEq, Repr

/-- A per-file test result dictionary of `_generate_and_run_tests`
(lines 265-322). -/
structure TestArtifactResult where
  status : String
  file : String
  tests : Option String := none
  reason : Option String := none
  error : Option String := none
  /-- `tests_run` / `tests_passed` entries read by the PR description
  renderer (pr_manager.py lines 200-205); no producer in this pipeline ever
  sets them (implementation_manager.py line 307 notes tests are not run). -/
  testsRun : Option Nat := none
  testsPassed : Option Nat := none
  deriving DecidableEq, Repr

/-- The task-details dictionary passed to
`ImplementationManager.implement_task`.  Each `Option` field marks the
presence of the corresponding key; `rest` carries the dictionary's other
entries, which the implementer neither reads nor writes (stated as the
frame property of the claim theorems). -/
structure ImplTask where
  taskId : Option String := none
  requirements : Option Requirements := none
  testingRequired : Option Bool := none
  repositoryAnalysis : Option RepoAnalysis := none
  rest : List (String × String) := []
  deriving DecidableEq, Repr

/-- Arguments handed to the external code-generation collaborator
(`CodeGenerator.generate_implementation`, called at lines 214-220). -/
structure GenArgs where
  path : String
  language : Option String
  codeStyle : String
  existingContent : Option String
  deriving DecidableEq, Repr

/-- External collaborators of `ImplementationManager`: detection results,
the working tree, and the two generation calls; file writes include the
`os.makedirs` of their parent directory. -/
structure ImplEnv where
  repoAnalysis : RepoAnalysis
  fileExistsAt : String → Bool
  readFileAt : String → String
  generateImplementation : GenArgs → Except String String
  writeFileAt : String → String → Except String Unit
  generateUnitTests : String → Option String → String → Option String → Except String String
  writeTestFileAt : String → String → Except String Unit

/-- Framework determination of `_generate_and_run_tests` (lines 277-282). -/
def determineFramework (language : Option String) (ta : ImplTask) : Option String :=
  let frameworks := (ta.repositoryAnalysis.getD {}).frameworks
  let hasKey := fun (f : String) => (frameworks.find? (·.1 == f)).isSome
  if language = some "JavaScript" ∨ language = some "TypeScript" then
    if hasKey "Jest" ∨ hasKey "Mocha" then
      some (if hasKey "Jest" then "Jest" else "Mocha")
    else none
  else if language = some "Python" then
    some (if hasKey "pytest" then "pytest" else "unittest")
  else none

/-- `ImplementationManager._determine_files_to_modify` (lines 134-190): one
`file_info` per entry of `requirements['files_to_modify']`; when the
`requirements` key is absent (or holds no `files_to_modify`) the list is
empty.  For an existing file the language key is set only when the
extension is known; for a new file an unknown extension falls back to the
repository's primary language. -/
def determineFilesToModify (env : ImplEnv) (repoPath : String) (ta : ImplTask) :
    List FileInfo :=
  match ta.requirements with
  | none => []
  | some reqs =>
    reqs.filesToModify.map (fun filePath =>
      let fullPath := pyJoin repoPath filePath
      let ext := pyExtLower filePath
      if env.fileExistsAt fullPath then
        { path := filePath, fullPath := fullPath, existsInTree := true,
          action := "modify",
          existingContent := some (env.readFileAt fullPath),
          language := (extLanguage ext).map some }
      else
        { path := filePath, fullPath := fullPath, existsInTree := false,
          action := "create", existingContent := none,
          language := some (match extLanguage ext with
            | some l => some l
            | none => (ta.repositoryAnalysis.getD {}).primaryLanguage) })

/-- `ImplementationManager._implement_file_changes` (lines 192-250).  The
access `file_info['language']` (line 206) happens before the `try`
block, so an absent language key raises KeyError out of the method
(Python's `str(KeyError('language'))` is `'language'`, quotes included);
generation and write failures inside the `try` are recorded as an error
result. -/
def implementFileChanges (env : ImplEnv) (fi : FileInfo) (ta : ImplTask) :
    Except String FileChangeResult × List Effect :=
  match fi.language with
  | none => (.error "'language'", [])
  | some language =>
    let codeStyle := (ta.repositoryAnalysis.getD {}).codeStyle
    match env.generateImplementation
        { path := fi.path, language := language, codeStyle := codeStyle,
          existingContent := fi.existingContent } with
    | .error e =>
      (.ok { status := "error", file := fi.path, language := language,
             action := fi.action, error := some e }, [.generateImpl fi.path])
    | .ok implementation =>
      match env.writeFileAt fi.fullPath implementation with
      | .error e =>
        (.ok { status := "error", file := fi.path, language := language,
               action := fi.action, error := some e },
         [.generateImpl fi.path, .writeFile fi.fullPath])
      | .ok _ =>
        (.ok { status := "success", file := fi.path, language := language,
               action := fi.action, implementation := some implementation },
         [.generateImpl fi.path, .writeFile fi.fullPath])

/-- The per-file loop of `implement_task` (lines 67-70): results accumulate
in order; an exception raised by `_implement_file_changes` aborts the
loop (and, with it, the whole call). -/
def implLoop (env : ImplEnv) (ta : ImplTask) :
    List FileInfo → Except String (List FileChangeResult) × List Effect
  | [] => (.ok [], [])
  | fi :: restFiles =>
    match implementFileChanges env fi ta with
    | (.error e, fx) => (.error e, Effect.processFile fi.path :: fx)
    | (.ok r, fx) =>
      let (res, fx2) := implLoop env ta restFiles
      (res.map (r :: ·), (Effect.processFile fi.path :: fx) ++ fx2)

/-- `ImplementationManager._get_test_file_path` (lines 324-356). -/
def getTestFilePath (implementationPath : String) (language : Option String) :
    String :=
  let baseName := pyBasename implementationPath
  let dirName := pyDirname implementationPath
  let ne := pySplitextBase baseName
  if language = some "JavaScript" ∨ language = some "TypeScript" then
    pyJoin dirName (ne.1 ++ ".test" ++ ne.2)
  else if language = some "Python" then
    pyJoin dirName ("test_" ++ ne.1 ++ ne.2)
  else if language = some "Java" ∨ language = some "Kotlin" then
    pyJoin dirName (ne.1 ++ "Test" ++ ne.2)
  else if language = some "C#" then
    pyJoin dirName (ne.1 ++ "Tests" ++ ne.2)
  else
    pyJoin dirName (ne.1 ++ "Test" ++ ne.2)

/-- `ImplementationManager._generate_and_run_tests` (lines 252-322): skipped
for a non-success implementation; otherwise the external test generation
and the test-file write run inside a `try`, with `status 'generated'` on
success (carrying the test file path) and `status 'error'` with the
message on an exception. -/
def generateAndRunTests (env : ImplEnv) (repoPath : String)
    (ir : FileChangeResult) (ta : ImplTask) : TestArtifactResult × List Effect :=
  if ir.status ≠ "success" then
    ({ status := "skipped", file := ir.file, reason := some "Implementation failed" },
     [])
  else
    let framework := determineFramework ir.language ta
    match env.generateUnitTests (ir.implementation.getD "") ir.language ir.file
        framework with
    | .error e =>
      ({ status := "error", file := ir.file, error := some e },
       [.generateTests ir.file])
    | .ok tests =>
      let testFilePath := getTestFilePath ir.file ir.language
      match env.writeTestFileAt (pyJoin repoPath testFilePath) tests with
      | .error e =>
        ({ status := "error", file := ir.file, error := some e },
         [.generateTests ir.file, .writeTestFile testFilePath])
      | .ok _ =>
        ({ status := "generated", file := testFilePath, tests := some tests },
         [.generateTests ir.file, .writeTestFile testFilePath])

/-- The test loop of `implement_task` (lines 73-78): `_generate_and_run_tests`
is invoked only for implementations whose status is `success`; all other
implementations contribute nothing to the test list. -/
def testLoop (env : ImplEnv) (repoPath : String) (ta : ImplTask) :
    List FileChangeResult → List TestArtifactResult × List Effect
  | [] => ([], [])
  | ir :: restResults =>
    if ir.status = "success" then
      let tfx := generateAndRunTests env repoPath ir ta
      let rest := testLoop env repoPath ta restResults
      (tfx.1 :: rest.1, tfx.2 ++ rest.2)
    else testLoop env repoPath ta restResults

/-- The summary dictionary `implement_task` returns (lines 81-87). -/
structure ImplOutcome where
  status : String
  taskId : Option String := none
  implementations : List FileChangeResult
  tests : List TestArtifactResult
  repositoryAnalysis : RepoAnalysis
  deriving DecidableEq, Repr

/-- `ImplementationManager.implement_task` (lines 38-87): analyze the
repository, mutate the caller's `task_details` dictionary with the
`repository_analysis` entry, determine candidate files, implement each,
then (when `testing_required` is truthy) generate tests for the successful
implementations.  Python mutates the caller's dictionary in place before
the file loop; the embedding returns the updated dictionary in the second
component — also when the call raises, since the mutation has already
happened by then. -/
def implementTask (env : ImplEnv) (repoPath : String) (ta : ImplTask) :
    Except String ImplOutcome × ImplTask × List Effect :=
  let repoAnalysis := env.repoAnalysis
  let ta' := { ta with repositoryAnalysis := some repoAnalysis }
  let filesToModify := determineFilesToModify env repoPath ta'
  match implLoop env ta' filesToModify with
  | (.error e, fx) => (.error e, ta', [.analyzeRepo, .updateTaskDetails] ++ fx)
  | (.ok implementationResults, fx) =>
    let testsFx :=
      if ta'.testingRequired.getD false then
        testLoop env repoPath ta' implementationResults
      else ([], [])
    (.ok { status := "completed", taskId := ta'.taskId,
           implementations := implementationResults, tests := testsFx.1,
           repositoryAnalysis := repoAnalysis }, ta',
     [.analyzeRepo, .updateTaskDetails] ++ fx ++ testsFx.2)

/-! ## PR manager (`pr_manager.py`) -/

/-- `task_details.get('title', 'Implement task')` (pr_manager.py line 124):
the task-details dictionary handed to the PR manager is either the
extracted details or `\x7b\x7d` (modelled by `none`). -/
def prTaskTitle (td : Option TaskDetails) : String :=
  (td.map (·.title)).getD "Implement task"

/-- `PRManager._create_pr_title` (lines 112-134): format
`[Task #id] title (AI Agent)`, truncated to `title[:252] + "..."` when
longer than 255 characters. -/
def createPrTitle (taskId : String) (td : Option TaskDetails) : String :=
  let title := "[Task #" ++ taskId ++ "] " ++ prTaskTitle td ++ " (AI Agent)"
  if pyLen title > 255 then pyTake 252 title ++ "..." else title

/-- `task_details.get('description', 'No description provided')` truncated
to `d[:497] + "..."` when longer than 500 (lines 177-179). -/
def prBriefDescription (td : Option TaskDetails) : String :=
  let d := (td.map (·.description)).getD "No description provided"
  if pyLen d > 500 then pyTake 497 d ++ "..." else d

/-- One bullet of the Implemented Changes section (line 188).  A `language`
entry holding Python `None` renders as the string `None`. -/
def changesLine (i : FileChangeResult) : String :=
  "- **" ++ pyCapitalize i.action ++ "** `" ++ i.file ++ "` (" ++
  (match i.language with | some l => l | none => "None") ++ ")"

/-- The Testing section lines (lines 192-209). -/
def testingSection (tests : List TestArtifactResult) : String :=
  let testFiles := (tests.filter
    (fun t => t.status = "success" ∨ t.status = "generated")).map (·.file)
  if testFiles ≠ [] then
    let testLines :=
      ["- Created/updated " ++ toString testFiles.length ++ " test files"] ++
      testFiles.map (fun f => "  - `" ++ f ++ "`") ++
      (if tests.any (·.testsRun.isSome) then
        let totalRun := (tests.map (fun t => t.testsRun.getD 0)).sum
        let totalPassed := (tests.map (fun t => t.testsPassed.getD 0)).sum
        if totalRun > 0 then
          ["- Ran " ++ toString totalRun ++ " tests, " ++ toString totalPassed ++
           " passed"]
        else []
      else [])
    String.intercalate "\n" testLines
  else "- No tests were created or run"

/-- `PRManager._create_pr_description` (lines 136-219): the fixed template
with Summary, Implemented Changes, Testing, Task Reference and the closing
attribution line. -/
def createPrDescription (taskId : String) (td : Option TaskDetails)
    (ir : ImplOutcome) : String :=
  let changesList := ir.implementations.map changesLine
  let changes :=
    if changesList = [] then "- No changes implemented"
    else String.intercalate "\n" changesList
  "\n## Summary\n" ++ prBriefDescription td ++
  "\n\n## Implemented Changes\n" ++ changes ++
  "\n\n## Testing\n" ++ testingSection ir.tests ++
  "\n\n## Task Reference\nThis PR addresses Azure DevOps Task #" ++ taskId ++
  "\n\n_This pull request was created by an AI Agent_\n"

/-- Result dictionary of `PRManager.create_pull_request` (lines 98-110). -/
structure PROutcome where
  status : String
  message : Option String := none
  prId : Option Int := none
  prUrl : Option String := none
  title : Option String := none
  deriving DecidableEq, Repr

/-- External collaborators of `PRManager`: the git handler (optional in the
constructor), its push, and the Azure DevOps PR-creation call returning
(id, url). -/
structure PREnv where
  gitHandlerPresent : Bool := true
  pushRes : Except String Unit := .ok ()
  prCreateRes : Except String (Int × String) := .ok (1, "")

/-- The PR-creation half of `create_pull_request` (lines 73-110): title and
description are rendered, then the Azure client call runs inside a `try`
whose failures become an error outcome.  `int(task_id)` (line 94) is
evaluated while building the call's arguments, so a non-numeric id raises
inside the `try` before the collaborator is invoked. -/
def prCreateCore (env : PREnv) (taskId : String) (td : Option TaskDetails)
    (ir : ImplOutcome) : PROutcome × List Effect :=
  let title := createPrTitle taskId td
  let description := createPrDescription taskId td ir
  match pyInt taskId with
  | none =>
    ({ status := "error",
       message := some ("Failed to create PR: invalid literal for int() with base 10: '"
         ++ taskId ++ "'") }, [])
  | some _ =>
    match env.prCreateRes with
    | .error e =>
      ({ status := "error", message := some ("Failed to create PR: " ++ e) },
       [.createPR title description])
    | .ok pr =>
      ({ status := "success", prId := some pr.1, prUrl := some pr.2,
         title := some title }, [.createPR title description])

/-- `PRManager.create_pull_request` (lines 36-110): when a git handler is
present the branch is pushed (with upstream tracking) first; a push failure
returns the error outcome immediately, before any PR-creation work. -/
def prCreatePullRequest (env : PREnv) (taskId : String) (td : Option TaskDetails)
    (ir : ImplOutcome) (sourceBranch : String) : PROutcome × List Effect :=
  if env.gitHandlerPresent then
    match env.pushRes with
    | .error e =>
      ({ status := "error", message := some ("Failed to push changes: " ++ e) },
       [.gitPush sourceBranch true])
    | .ok _ =>
      let core := prCreateCore env taskId td ir
      (core.1, Effect.gitPush sourceBranch true :: core.2)
  else
    prCreateCore env taskId td ir

/-- A metric value of the performance-comparison table: Python numbers
(`int`/`float`, modelled as exact rationals) or any other value. -/
inductive MetricVal where
  | num (q : ℚ)
  | txt (s : String)
  deriving DecidableEq, Repr

/-- Round to the nearest integer, ties to even — the rounding of Python's
fixed-point formatting. -/
def roundHalfEven (q : ℚ) : Int :=
  let f := ⌊q⌋
  let frac := q - f
  if frac < 1/2 then f
  else if 1/2 < frac then f + 1
  else if f % 2 = 0 then f else f + 1

def pad2 (n : Nat) : String := if n < 10 then "0" ++ toString n else toString n

/-- `f"\x7bx:.2f\x7d"` idealized over exact rationals: two digits after the
point, ties to even.  (Python formats the binary double nearest to the
exact quotient; the embedding computes with the exact rational instead.) -/
def formatFixed2 (q : ℚ) : String :=
  let n := roundHalfEven (q * 100)
  (if n < 0 then "-" else "") ++ toString (n.natAbs / 100) ++ "." ++
    pad2 (n.natAbs % 100)

/-- Display of a before/after cell value (`str()` of the metric value, with
the float repr abstracted; an absent metric displays the `'N/A'` default of
`.get(metric, 'N/A')`). -/
def showMetricVal (v : Option MetricVal) : String :=
  match v with
  | some (.num q) => toString q
  | some (.txt s) => s
  | none => "N/A"

/-- The Change cell of one row of
`PRManager.format_pr_for_performance_optimization` (lines 305-318): for a
numeric before/after pair the percent change `(after-before)/before*100`
formatted to two decimals, except that a zero before-value takes the
explicit division-by-zero branch; any non-numeric operand yields `'N/A'`. -/
def metricChangeCell (beforeVal afterVal : Option MetricVal) : String :=
  match beforeVal.getD (.txt "N/A"), afterVal.getD (.txt "N/A") with
  | .num b, .num a =>
    if b ≠ 0 then formatFixed2 ((a - b) / b * 100) ++ "%"
    else "N/A (division by zero)"
  | _, _ => "N/A"

/-- `PRManager.format_pr_for_performance_optimization` (lines 282-323): the
appended Performance Comparison table.  Python iterates
`set(before.keys() + after.keys())` in unspecified order; first-occurrence
order stands in for it. -/
def formatPrForPerformanceOptimization (description : String)
    (beforeMetrics afterMetrics : List (String × MetricVal)) : String :=
  if beforeMetrics = [] ∨ afterMetrics = [] then description
  else
    let keys := pySetList (beforeMetrics.map (·.1) ++ afterMetrics.map (·.1))
    let rows := keys.map (fun metric =>
      let bv := (beforeMetrics.find? (·.1 == metric)).map (·.2)
      let av := (afterMetrics.find? (·.1 == metric)).map (·.2)
      "| " ++ metric ++ " | " ++ showMetricVal bv ++ " | " ++ showMetricVal av ++
      " | " ++ metricChangeCell bv av ++ " |\n")
    description ++ "\n" ++ "\n## Performance Comparison\n" ++
    "| Metric | Before | After | Change |\n|--------|--------|-------|--------|\n" ++
    String.join rows

/-! ## Orchestrator (`orchestrator.py`) -/

/-- The modules orchestrator.py imports (lines 8-20).  `re` is not among
them, although `_get_repository_id` calls `re.search`. -/
def orchestratorImports : List String :=
  ["os", "logging", "tempfile", "shutil", "typing", "datetime",
   "azure_devops_agent.core.azure_client", "azure_devops_agent.core.task_processor",
   "azure_devops_agent.core.pr_manager", "azure_devops_agent.repository.git_handler",
   "azure_devops_agent.implementation.implementation_manager",
   "azure_devops_agent.testing.test_runner"]

/-- `re.search(r'/_git/([^/]+)\x24', url)`: the text after the last `/_git/`
marker, when it is non-empty and slash-free. -/
def gitSuffixMatch (url : String) : Option String :=
  match (url.splitOn "/_git/").reverse with
  | [] => none
  | [_] => none
  | seg :: _ :: _ =>
    if seg ≠ "" ∧ ¬ seg.data.contains '/' then some seg else none

/-- `url.rstrip('/').split('/')[-1]` (lines 250-251). -/
def lastUrlSegment (url : String) : String :=
  let stripped := String.mk (url.data.reverse.dropWhile (· = '/')).reverse
  match (stripped.splitOn "/").reverse with
  | [] => "unknown-repo"
  | s :: _ => s

/-- `Orchestrator._get_repository_id` (lines 222-251).  The dictionary it
receives from `_determine_repository` never holds an `id` key, and
orchestrator.py does not import `re`, so evaluating `re.search` raises
`NameError: name 're' is not defined`.  The regex / name / last-segment
fallbacks are embedded under the import guard to record the intended
behaviour; they are unreachable in the module as written. -/
def getRepositoryId (repoInfo : RepoInfo) : Except String String :=
  match repoInfo.id with
  | some i => .ok i
  | none =>
    if "re" ∈ orchestratorImports then
      let url := repoInfo.url.getD ""
      match gitSuffixMatch url with
      | some repoName => .ok repoName
      | none =>
        match repoInfo.name with
        | some n => .ok n
        | none => .ok (lastUrlSegment url)
    else .error "name 're' is not defined"

/-- External collaborators of one `Orchestrator.process_task` invocation.
`elapsedStr` stands for `str(datetime.now() - start_time)` at the exit
point: a wall-clock measurement opaque to the embedding. -/
structure OrchEnv where
  tp : TPEnv
  workDir : String := "/tmp/azdevops"
  makeDirsRes : Except String Unit := .ok ()
  cloneRes : Except String Unit := .ok ()
  branchRes : Except String Unit := .ok ()
  impl : ImplEnv
  gitAddRes : Except String Unit := .ok ()
  commitRes : Except String String := .ok ""
  pr : PREnv := {}
  elapsedStr : String := ""

/-- `Orchestrator._setup_repository` (lines 186-220): make the per-task
directory, clone, create branch `task/id`, all inside a `try`; any
exception yields `None` (the orchestrator then reports a setup error). -/
def setupRepository (env : OrchEnv) (repoUrl taskId : String) :
    Option String × List Effect :=
  let repoDir := pyJoin env.workDir ("task_" ++ taskId)
  match env.makeDirsRes with
  | .error _ => (none, [.makeDirs repoDir])
  | .ok _ =>
    match env.cloneRes with
    | .error _ => (none, [.makeDirs repoDir, .cloneRepo repoUrl repoDir])
    | .ok _ =>
      match env.branchRes with
      | .error _ =>
        (none, [.makeDirs repoDir, .cloneRepo repoUrl repoDir,
                .createBranch ("task/" ++ taskId)])
      | .ok _ =>
        (some repoDir, [.makeDirs repoDir, .cloneRepo repoUrl repoDir,
                        .createBranch ("task/" ++ taskId)])

/-- `ImplementationManager.commit_changes` (lines 358-381): stage everything,
commit under the deterministic message; git failures raise out of the
method (the orchestrator's top-level handler catches them). -/
def commitChangesIM (env : OrchEnv) (taskId : String) :
    Except String String × List Effect :=
  match env.gitAddRes with
  | .error e => (.error e, [.gitAdd])
  | .ok _ =>
    let message := "Implement task #" ++ taskId ++
      "\n\nImplemented by Azure DevOps AI Agent"
    match env.commitRes with
    | .error e => (.error e, [.gitAdd, .gitCommit message])
    | .ok commitHash => (.ok commitHash, [.gitAdd, .gitCommit message])

/-- The result dictionary of `Orchestrator.process_task`. -/
structure PipelineResult where
  status : String
  message : Option String := none
  taskId : String
  implementationResult : Option ImplOutcome := none
  commitHash : Option String := none
  pullRequest : Option PROutcome := none
  processingTime : String
  deriving DecidableEq, Repr

/-- The dictionary `implement_task` receives from the orchestrator is the
whole `task_result` of `TaskProcessor.process_task` (orchestrator.py
line 140): it has a `requirements` key but no `id`, `testing_required` or
`repository_analysis` key. -/
def toImplTask (tr : TPResult) : ImplTask :=
  { taskId := none, requirements := tr.requirements, testingRequired := none,
    repositoryAnalysis := none,
    rest := [("status", tr.status), ("task_id", tr.taskId)] }

/-- The `try` body of `Orchestrator.process_task` (lines 101-174): analyze,
clarification exit, repository-URL precondition, setup, implement, commit,
repository-id lookup, PR creation, final assembly.  An `.error` is an
exception the body raises to the top-level handler. -/
def processTaskBody (env : OrchEnv) (taskId : String) :
    Except String PipelineResult × List Effect :=
  match tpProcessTask env.tp taskId with
  | (.error e, fx) => (.error e, fx)
  | (.ok taskResult, fx) =>
    if taskResult.status = "clarification_requested" then
      (.ok { status := "clarification_requested",
             message := some "Clarification requested for this task. Please check the task comments.",
             taskId := taskId, processingTime := env.elapsedStr }, fx)
    else
      let repoInfo := taskResult.repository.getD {}
      let repoUrl := repoInfo.url.getD ""
      if repoUrl = "" then
        (.ok { status := "error",
               message := some "Repository URL not found in task details.",
               taskId := taskId, processingTime := env.elapsedStr }, fx)
      else
        match setupRepository env repoUrl taskId with
        | (none, fx2) =>
          (.ok { status := "error", message := some "Failed to set up repository.",
                 taskId := taskId, processingTime := env.elapsedStr }, fx ++ fx2)
        | (some repoPath, fx2) =>
          match implementTask env.impl repoPath (toImplTask taskResult) with
          | (.error e, _, fx3) => (.error e, fx ++ fx2 ++ fx3)
          | (.ok implOut, _, fx3) =>
            match commitChangesIM env taskId with
            | (.error e, fx4) => (.error e, fx ++ fx2 ++ fx3 ++ fx4)
            | (.ok commitHash, fx4) =>
              match getRepositoryId repoInfo with
              | .error e => (.error e, fx ++ fx2 ++ fx3 ++ fx4)
              | .ok _repositoryId =>
                let prFx := prCreatePullRequest env.pr taskId
                  taskResult.taskDetails implOut ("task/" ++ taskId)
                (.ok { status := "completed", taskId := taskId,
                       implementationResult := some implOut,
                       commitHash := some commitHash,
                       pullRequest := some prFx.1,
                       processingTime := env.elapsedStr },
                 fx ++ fx2 ++ fx3 ++ fx4 ++ prFx.2)

/-- `Orchestrator.process_task` (lines 83-184): the body above runs inside a
single `try except Exception`; any exception becomes the terminal error
dictionary `\x7bstatus: error, message: "Error processing task: …",
task_id, processing_time\x7d` — the method itself never raises. -/
def processTask (env : OrchEnv) (taskId : String) : PipelineResult × List Effect :=
  match processTaskBody env taskId with
  | (.ok r, fx) => (r, fx)
  | (.error e, fx) =>
    ({ status := "error", message := some ("Error processing task: " ++ e),
       taskId := taskId, processingTime := env.elapsedStr }, fx)

/-! ## Statement-side definitions and concrete scenario inputs -/

/-- The untruncated PR title `[Task #id] title (AI Agent)` of
`_create_pr_title` line 127, named so the truncation contract can refer
to it. -/
def prBaseTitle (taskId : String) (td : Option TaskDetails) : String :=
  "[Task #" ++ taskId ++ "] " ++ prTaskTitle td ++ " (AI Agent)"

/-- The result dictionary `_implement_file_changes` records for one file:
with the language key present, the `try` block converts generation and
write failures into an error result, so the per-file call never raises.
(The `none` language branch mirrors the KeyError message for totality; it
is unreachable under the language-key hypothesis of the theorems.) -/
def recordedFileChange (env : ImplEnv) (ta : ImplTask) (fi : FileInfo) :
    FileChangeResult :=
  match fi.language with
  | none => { status := "error", file := fi.path, action := fi.action,
              error := some "'language'" }
  | some language =>
    match env.generateImplementation
        { path := fi.path, language := language,
          codeStyle := (ta.repositoryAnalysis.getD {}).codeStyle,
          existingContent := fi.existingContent } with
    | .error e => { status := "error", file := fi.path, language := language,
                    action := fi.action, error := some e }
    | .ok implementation =>
      match env.writeFileAt fi.fullPath implementation with
      | .error e => { status := "error", file := fi.path, language := language,
                      action := fi.action, error := some e }
      | .ok _ => { status := "success", file := fi.path, language := language,
                   action := fi.action, implementation := some implementation }

/-- End-to-end scenario task of the spec (§8): id 42, description of 86
characters mentioning `src/app.py`, acceptance criteria present,
repository URL present. -/
def tdC3 : TaskDetails :=
  { id := "42", title := "Add flag support",
    description := "Update the helper in src/app.py to support the new flag and keep behaviour unchanged.",
    acceptanceCriteria := "The new flag is honoured by the helper.",
    repository := some { url := "https://dev.azure.com/org/proj/_git/repo" } }

/-- An implementation environment in which every collaborator succeeds. -/
def implEnvOk : ImplEnv :=
  { repoAnalysis := { languages := [("Python", 10)], primaryLanguage := some "Python" },
    fileExistsAt := fun _ => true,
    readFileAt := fun _ => "old content",
    generateImplementation := fun _ => .ok "new content",
    writeFileAt := fun _ _ => .ok (),
    generateUnitTests := fun _ _ _ _ => .ok "tests",
    writeTestFileAt := fun _ _ => .ok () }

/-- The end-to-end environment: every external collaborator (fetch, comment,
clone, branch, generation, write, stage, commit, push, PR creation)
succeeds. -/
def envC3 : OrchEnv :=
  { tp := { fetchTask := .ok tdC3, addCommentRes := .ok (), clientProject := some "proj" },
    impl := implEnvOk, commitRes := .ok "abc123", elapsedStr := "0:00:01" }

/-- A task needing clarification: 11-character description, no acceptance
criteria, no repository (spec §8's second end-to-end scenario). -/
def tdC2 : TaskDetails := { id := "7", title := "Fix", description := "Fix the bug" }

def envC2 : OrchEnv :=
  { tp := { fetchTask := .ok tdC2, addCommentRes := .ok () },
    impl := implEnvOk, elapsedStr := "0:00:00" }

/-- Three candidate files where generation throws for exactly `b.py`
(the partial-failure scenario of spec §8). -/
def taC4 : ImplTask :=
  { requirements := some
      { filesToModify := ["a.py", "b.py", "c.py"], testingRequired := false,
        descriptionSummary := "" } }

/-- Implementation environment whose generator raises exactly on `b.py`;
no file exists in the working tree. -/
def implEnvC4 : ImplEnv :=
  { repoAnalysis := { languages := [("Python", 3)], primaryLanguage := some "Python" },
    fileExistsAt := fun _ => false,
    readFileAt := fun _ => "",
    generateImplementation := fun g => if g.path = "b.py" then .error "boom" else .ok "code",
    writeFileAt := fun _ _ => .ok (),
    generateUnitTests := fun _ _ _ _ => .ok "test code",
    writeTestFileAt := fun _ _ => .ok () }

/-- Three candidate files where `data.bin` already exists in the working
tree: its extension is outside LANGUAGE_EXTENSIONS and existing files get
no primary-language fallback (implementation_manager.py lines 162-171), so
its file_info carries no language key. -/
def taC4b : ImplTask :=
  { requirements := some
      { filesToModify := ["b.py", "data.bin", "c.py"], testingRequired := false,
        descriptionSummary := "" } }

/-- Like `implEnvC4` (generation raises exactly on b.py), except that
`data.bin` exists in the working tree. -/
def implEnvC4b : ImplEnv :=
  { implEnvC4 with fileExistsAt := fun p => p == "/repo/data.bin" }

/-- One candidate file whose implementation fails, with the testing flag
set. -/
def taC5 : ImplTask :=
  { requirements := some
      { filesToModify := ["b.py"], testingRequired := true,
        descriptionSummary := "" },
    testingRequired := some true }

/-- Two candidate files (one succeeding, one failing) with the testing
flag set. -/
def taC5w : ImplTask :=
  { requirements := some
      { filesToModify := ["a.py", "b.py"], testingRequired := true,
        descriptionSummary := "" },
    testingRequired := some true }

/-- A PR environment whose push fails. -/
def prEnvC6 : PREnv :=
  { gitHandlerPresent := true, pushRes := .error "remote rejected" }

/-- An empty implementation outcome for the PR-manager scenarios. -/
def irEmpty : ImplOutcome :=
  { status := "completed", implementations := [], tests := [],
    repositoryAnalysis := {} }

/-- A 501-character description (of a character neither pattern matches,
so the candidate scan is trivial). -/
def tdC8 : TaskDetails := { description := String.mk (List.replicate 501 '!') }

/-! ## Helper lemmas -/

theorem pyLen_append (a b : String) : pyLen (a ++ b) = pyLen a + pyLen b := by
  cases a; cases b; simp [pyLen, String.length]

theorem pyLen_pyTake (n : Nat) (s : String) : pyLen (pyTake n s) = min n (pyLen s) := by
  simp [pyLen, pyTake]

/-- Fidelity check: both patterns on the spec's end-to-end description. -/
theorem scanners_on_endToEnd_description :
    reFindAll p1At "Update the code in src/app.py please" = ["src/app.py"] ∧
    reFindAll p2At "Update src/app.py now" = ["src/app.py"] ∧
    reFindAll p1At "no paths here" = [] ∧ reFindAll p2At "no paths here" = [] := by
  decide

/-! ## C7 — PR title formatting -/

/-- C7: the PR title formatter returns `[Task #id] task-title (AI Agent)`;
when that string exceeds 255 characters it replaces the tail with the
3-character `...` marker, yielding exactly 255 characters; it is
deterministic. -/
theorem pr_title_format_truncation_deterministic (taskId : String)
    (td : Option TaskDetails) :
    (pyLen (prBaseTitle taskId td) ≤ 255 →
      createPrTitle taskId td = prBaseTitle taskId td) ∧
    (255 < pyLen (prBaseTitle taskId td) →
      createPrTitle taskId td = pyTake 252 (prBaseTitle taskId td) ++ "..." ∧
      pyLen (createPrTitle taskId td) = 255) ∧
    createPrTitle taskId td = createPrTitle taskId td := by
  have hkey : createPrTitle taskId td =
      if pyLen (prBaseTitle taskId td) > 255 then
        pyTake 252 (prBaseTitle taskId td) ++ "..."
      else prBaseTitle taskId td := rfl
  have h3 : pyLen "..." = 3 := by decide
  refine ⟨fun hle => ?_, fun hgt => ⟨?_, ?_⟩, rfl⟩
  · rw [hkey, if_neg (by omega)]
  · rw [hkey, if_pos (by omega)]
  · rw [hkey, if_pos (by omega), pyLen_append, pyLen_pyTake]
    omega

/-! ## C8 — description summary truncation -/

/-- C8 (amended): the summary equals the description when it has at most
500 characters; a longer description is truncated to its first 500
characters plus the `...` marker, giving exactly 503 characters — so the
bound is 503, not the claimed 500. -/
theorem description_summary_truncation (td : TaskDetails) :
    (pyLen td.description ≤ 500 →
      (analyzeRequirements td).descriptionSummary = td.description) ∧
    (500 < pyLen td.description →
      (analyzeRequirements td).descriptionSummary =
        pyTake 500 td.description ++ "..." ∧
      pyLen (analyzeRequirements td).descriptionSummary = 503) ∧
    pyLen (analyzeRequirements td).descriptionSummary ≤ 503 := by
  have hkey : (analyzeRequirements td).descriptionSummary =
      if pyLen td.description > 500 then pyTake 500 td.description ++ "..."
      else td.description := rfl
  have h3 : pyLen "..." = 3 := by decide
  have htrunc : 500 < pyLen td.description →
      pyLen (pyTake 500 td.description ++ "...") = 503 := by
    intro hgt
    rw [pyLen_append, pyLen_pyTake]
    omega
  refine ⟨fun hle => ?_, fun hgt => ⟨?_, ?_⟩, ?_⟩
  · rw [hkey, if_neg (by omega)]
  · rw [hkey, if_pos (by omega)]
  · rw [hkey, if_pos (by omega)]
    exact htrunc hgt
  · by_cases hgt : 500 < pyLen td.description
    · rw [hkey, if_pos (by omega)]
      omega
    · rw [hkey, if_neg (by omega)]
      omega

set_option maxRecDepth 4000 in
/-- C8 counterexample: a 501-character description produces a 503-character
summary, refuting the claimed 500-character bound. -/
theorem summary_exceeds_bound_on_501_chars :
    ¬ pyLen (analyzeRequirements tdC8).descriptionSummary ≤ 500 := by decide

/-! ## C9 — performance-metric division-by-zero guard -/

/-- The division-by-zero guard of the performance table, in the
exact-rational idealization: a numeric before-value of 0 yields exactly
`N/A (division by zero)` for any numeric after-value, and any other
numeric pair yields a two-decimal percent string.  This idealization does
NOT capture the IEEE binary64 behaviour of the source's
`(after - before) / before * 100`: with Python floats the cell can render
`inf%` or `nan%`, and a large-int operand can raise OverflowError —
behaviours `MetricVal.num`'s exact rationals cannot represent. -/
theorem perf_change_cell_guard (b a : ℚ) :
    metricChangeCell (some (.num 0)) (some (.num a)) = "N/A (division by zero)" ∧
    (b ≠ 0 → metricChangeCell (some (.num b)) (some (.num a)) =
      formatFixed2 ((a - b) / b * 100) ++ "%") ∧
    (metricChangeCell (some (.num b)) (some (.num a)) = "N/A (division by zero)" ∨
      ∃ q : ℚ, metricChangeCell (some (.num b)) (some (.num a)) =
        formatFixed2 q ++ "%") := by
  refine ⟨?_, fun hb => ?_, ?_⟩
  · simp [metricChangeCell]
  · simp [metricChangeCell, hb]
  · by_cases hb : b = 0
    · subst hb
      left
      simp [metricChangeCell]
    · right
      exact ⟨(a - b) / b * 100, by simp [metricChangeCell, hb]⟩

/-! ## C4 / C5 / C10 — implementation manager -/

/-- With the language key present, `_implement_file_changes` never raises:
its result is the recorded dictionary. -/
theorem implementFileChanges_ok (env : ImplEnv) (ta : ImplTask) (fi : FileInfo)
    (h : fi.language ≠ none) :
    (implementFileChanges env fi ta).1 = .ok (recordedFileChange env ta fi) := by
  rcases hl : fi.language with _ | lang
  · exact absurd hl h
  · cases hg : env.generateImplementation
        { path := fi.path, language := lang,
          codeStyle := (ta.repositoryAnalysis.getD {}).codeStyle,
          existingContent := fi.existingContent } with
    | error e => simp [implementFileChanges, recordedFileChange, hl, hg]
    | ok implementation =>
      cases hw : env.writeFileAt fi.fullPath implementation with
      | error e => simp [implementFileChanges, recordedFileChange, hl, hg, hw]
      | ok u => simp [implementFileChanges, recordedFileChange, hl, hg, hw]

/-- The per-file loop returns one recorded result per file, in order, when
every file has its language key. -/
theorem implLoop_ok (env : ImplEnv) (ta : ImplTask) (files : List FileInfo)
    (h : ∀ fi ∈ files, fi.language ≠ none) :
    (implLoop env ta files).1 = .ok (files.map (recordedFileChange env ta)) := by
  induction files with
  | nil => rfl
  | cons fi rest ih =>
    have hfi := implementFileChanges_ok env ta fi (h fi (by simp))
    rcases hfc : implementFileChanges env fi ta with ⟨res, fx⟩
    rw [hfc] at hfi
    simp only at hfi
    subst hfi
    have ihr := ih (fun g hg => h g (by simp [hg]))
    rcases hrec : implLoop env ta rest with ⟨res2, fx2⟩
    rw [hrec] at ihr
    simp only at ihr
    subst ihr
    simp [implLoop, hfc, hrec, Except.map]

/-- Each recorded result is a success without error entry, or an error
carrying a message. -/
theorem recordedFileChange_status (env : ImplEnv) (ta : ImplTask) (fi : FileInfo) :
    ((recordedFileChange env ta fi).status = "success" ∧
      (recordedFileChange env ta fi).error = none ∧
      (recordedFileChange env ta fi).implementation.isSome) ∨
    ((recordedFileChange env ta fi).status = "error" ∧
      (recordedFileChange env ta fi).error.isSome) := by
  rcases hl : fi.language with _ | lang
  · right
    simp [recordedFileChange, hl]
  · cases hg : env.generateImplementation
        { path := fi.path, language := lang,
          codeStyle := (ta.repositoryAnalysis.getD {}).codeStyle,
          existingContent := fi.existingContent } with
    | error e =>
      right
      simp [recordedFileChange, hl, hg]
    | ok implementation =>
      cases hw : env.writeFileAt fi.fullPath implementation with
      | error e =>
        right
        simp [recordedFileChange, hl, hg, hw]
      | ok u =>
        left
        simp [recordedFileChange, hl, hg, hw]

/-- A candidate's language key is absent exactly when the file already
exists in the working tree and its extension is outside
LANGUAGE_EXTENSIONS: `_determine_files_to_modify` sets the key for every
new file (falling back to the repository's primary language) but only for
known extensions of existing files (lines 162-179). -/
theorem determineFilesToModify_language_none (env : ImplEnv) (repoPath : String)
    (ta : ImplTask) (fi : FileInfo)
    (hfi : fi ∈ determineFilesToModify env repoPath ta) :
    fi.language = none ↔
      fi.existsInTree = true ∧ extLanguage (pyExtLower fi.path) = none := by
  cases hreq : ta.requirements with
  | none => simp [determineFilesToModify, hreq] at hfi
  | some reqs =>
    simp only [determineFilesToModify, hreq, List.mem_map] at hfi
    obtain ⟨p, -, rfl⟩ := hfi
    by_cases hex : env.fileExistsAt (pyJoin repoPath p)
    · cases hext : extLanguage (pyExtLower p) <;> simp [hex, hext]
    · simp [hex]

/-- C4 (amended): whenever every candidate file carries a language entry —
which holds exactly when every candidate already present in the working
tree has an extension in LANGUAGE_EXTENSIONS, see
`determineFilesToModify_language_none` — `implement_task` returns without
raising, with exactly one FileChangeResult per candidate file, each either
a success or an error carrying the exception message; a generation or
write failure never aborts the batch.  Without that proviso the batch can
abort: see `unknown_extension_aborts_batch`. -/
theorem implementer_partial_failure (env : ImplEnv) (repoPath : String)
    (ta : ImplTask)
    (hlang : ∀ fi ∈ determineFilesToModify env repoPath
        { ta with repositoryAnalysis := some env.repoAnalysis },
      fi.language ≠ none) :
    ∃ out, (implementTask env repoPath ta).1 = .ok out ∧
      out.implementations =
        (determineFilesToModify env repoPath
            { ta with repositoryAnalysis := some env.repoAnalysis }).map
          (recordedFileChange env
            { ta with repositoryAnalysis := some env.repoAnalysis }) ∧
      out.implementations.length =
        (determineFilesToModify env repoPath
          { ta with repositoryAnalysis := some env.repoAnalysis }).length ∧
      ∀ r ∈ out.implementations,
        (r.status = "success" ∧ r.error = none) ∨
        (r.status = "error" ∧ r.error.isSome) := by
  have hloop := implLoop_ok env { ta with repositoryAnalysis := some env.repoAnalysis }
    (determineFilesToModify env repoPath
      { ta with repositoryAnalysis := some env.repoAnalysis }) hlang
  rcases hl2 : implLoop env { ta with repositoryAnalysis := some env.repoAnalysis }
      (determineFilesToModify env repoPath
        { ta with repositoryAnalysis := some env.repoAnalysis }) with ⟨res, fx⟩
  rw [hl2] at hloop
  simp only at hloop
  subst hloop
  have hstep : (implementTask env repoPath ta).1 = .ok
      { status := "completed", taskId := ta.taskId,
        implementations := (determineFilesToModify env repoPath
            { ta with repositoryAnalysis := some env.repoAnalysis }).map
          (recordedFileChange env
            { ta with repositoryAnalysis := some env.repoAnalysis }),
        tests := (if ta.testingRequired.getD false then
            testLoop env repoPath
              { ta with repositoryAnalysis := some env.repoAnalysis }
              ((determineFilesToModify env repoPath
                  { ta with repositoryAnalysis := some env.repoAnalysis }).map
                (recordedFileChange env
                  { ta with repositoryAnalysis := some env.repoAnalysis }))
          else ([], [])).1,
        repositoryAnalysis := env.repoAnalysis } := by
    simp [implementTask, hl2]
  refine ⟨_, hstep, rfl, by simp, ?_⟩
  intro r hr
  simp only [List.mem_map] at hr
  obtain ⟨fi, _, rfl⟩ := hr
  have := recordedFileChange_status env
    { ta with repositoryAnalysis := some env.repoAnalysis } fi
  tauto

set_option maxRecDepth 2000 in
/-- C4 witness: the spec's 3-candidate-file scenario, with generation
raising for exactly one file. -/
theorem implementer_partial_failure_witness :
    ∃ out, (implementTask implEnvC4 "/repo" taC4).1 = .ok out ∧
      out.implementations =
        (determineFilesToModify implEnvC4 "/repo"
            { taC4 with repositoryAnalysis := some implEnvC4.repoAnalysis }).map
          (recordedFileChange implEnvC4
            { taC4 with repositoryAnalysis := some implEnvC4.repoAnalysis }) ∧
      out.implementations.length =
        (determineFilesToModify implEnvC4 "/repo"
          { taC4 with repositoryAnalysis := some implEnvC4.repoAnalysis }).length ∧
      ∀ r ∈ out.implementations,
        (r.status = "success" ∧ r.error = none) ∨
        (r.status = "error" ∧ r.error.isSome) :=
  implementer_partial_failure implEnvC4 "/repo" taC4 (by decide)

set_option maxRecDepth 2000 in
/-- C4 counterexample: three candidate files — generation raising on
`b.py`, `data.bin` existing in the tree with its extension outside
LANGUAGE_EXTENSIONS, `c.py` fine.  `b.py`'s error is recorded, then
`file_info['language']` on `data.bin` raises KeyError outside the per-file
`try` and the whole call aborts, returning no result list at all (`c.py`
is never processed) — refuting "records the error, continues with the
remaining files, and returns one FileChangeResult per candidate file
without raising" as stated for every list of candidate files. -/
theorem unknown_extension_aborts_batch :
    (determineFilesToModify implEnvC4b "/repo"
      { taC4b with repositoryAnalysis := some implEnvC4b.repoAnalysis }).length = 3 ∧
    (implementTask implEnvC4b "/repo" taC4b).1.toOption = none ∧
    Effect.processFile "c.py" ∉ (implementTask implEnvC4b "/repo" taC4b).2.2 := by
  decide

set_option maxRecDepth 2000 in
/-- Fidelity: in that scenario the three recorded statuses are
success, error (message `boom`), success — 3 results for 3 files. -/
theorem threeFile_statuses :
    ((implementTask implEnvC4 "/repo" taC4).1.toOption.map
      (fun out => out.implementations.map (fun r => (r.status, r.error)))) =
    some [("success", none), ("error", some "boom"), ("success", none)] := by
  decide

/-- The test loop of `implement_task` calls `_generate_and_run_tests` for
exactly the successful implementations, in order. -/
theorem testLoop_results (env : ImplEnv) (repoPath : String) (ta : ImplTask)
    (irs : List FileChangeResult) :
    (testLoop env repoPath ta irs).1 =
      (irs.filter (fun ir => ir.status == "success")).map
        (fun ir => (generateAndRunTests env repoPath ir ta).1) := by
  induction irs with
  | nil => rfl
  | cons ir rest ih =>
    by_cases h : ir.status = "success"
    · simp [testLoop, h, List.filter_cons, ih]
    · simp [testLoop, h, List.filter_cons, ih]

/-- For a successful implementation, `_generate_and_run_tests` returns
status `generated` or `error` (never `skipped`, never raising). -/
theorem generateAndRunTests_status (env : ImplEnv) (repoPath : String)
    (ir : FileChangeResult) (ta : ImplTask) (h : ir.status = "success") :
    (generateAndRunTests env repoPath ir ta).1.status = "generated" ∨
    (generateAndRunTests env repoPath ir ta).1.status = "error" := by
  cases hg : env.generateUnitTests (ir.implementation.getD "") ir.language ir.file
      (determineFramework ir.language ta) with
  | error e =>
    right
    simp [generateAndRunTests, h, hg]
  | ok tests =>
    cases hw : env.writeTestFileAt
        (pyJoin repoPath (getTestFilePath ir.file ir.language)) tests with
    | error e =>
      right
      simp [generateAndRunTests, h, hg, hw]
    | ok u =>
      left
      simp [generateAndRunTests, h, hg, hw]

/-- C5 (amended): with the testing flag set (and language keys present),
the implementer produces one TestArtifactResult per successful
implementation — `generated` when test generation and write succeed,
`error` with the message when one raises — and none at all for a file
whose implementation failed: the `skipped` branch of
`_generate_and_run_tests` is unreachable from `implement_task`, whose test
loop filters on success before calling it. -/
theorem tests_only_for_successful_files (env : ImplEnv) (repoPath : String)
    (ta : ImplTask) (htest : ta.testingRequired = some true)
    (hlang : ∀ fi ∈ determineFilesToModify env repoPath
        { ta with repositoryAnalysis := some env.repoAnalysis },
      fi.language ≠ none) :
    ∃ out, (implementTask env repoPath ta).1 = .ok out ∧
      out.tests = (out.implementations.filter
          (fun ir => ir.status == "success")).map
        (fun ir => (generateAndRunTests env repoPath ir
          { ta with repositoryAnalysis := some env.repoAnalysis }).1) ∧
      out.tests.length = (out.implementations.filter
        (fun ir => ir.status == "success")).length ∧
      ∀ t ∈ out.tests, t.status = "generated" ∨ t.status = "error" := by
  set ta2 : ImplTask := { ta with repositoryAnalysis := some env.repoAnalysis }
    with hta2
  have hloop := implLoop_ok env ta2 (determineFilesToModify env repoPath ta2) hlang
  rcases hl2 : implLoop env ta2 (determineFilesToModify env repoPath ta2)
    with ⟨res, fx⟩
  rw [hl2] at hloop
  simp only at hloop
  subst hloop
  have hcond2 : ta2.testingRequired = some true := by rw [hta2]; exact htest
  have hstep : (implementTask env repoPath ta).1 = .ok
      { status := "completed", taskId := ta.taskId,
        implementations := (determineFilesToModify env repoPath ta2).map
          (recordedFileChange env ta2),
        tests := (testLoop env repoPath ta2
            ((determineFilesToModify env repoPath ta2).map
              (recordedFileChange env ta2))).1,
        repositoryAnalysis := env.repoAnalysis } := by
    simp [implementTask, ← hta2, hl2, hcond2]
    simp [htest]
  have houtTests :
      (testLoop env repoPath ta2
        ((determineFilesToModify env repoPath ta2).map
          (recordedFileChange env ta2))).1 =
      (((determineFilesToModify env repoPath ta2).map
          (recordedFileChange env ta2)).filter
        (fun ir => ir.status == "success")).map
        (fun ir => (generateAndRunTests env repoPath ir ta2).1) :=
    testLoop_results env repoPath ta2 _
  refine ⟨_, hstep, houtTests, by rw [houtTests]; simp, ?_⟩
  intro t ht
  dsimp only at ht
  rw [houtTests] at ht
  simp only [List.mem_map, List.mem_filter] at ht
  obtain ⟨ir, ⟨_, hsucc⟩, rfl⟩ := ht
  exact generateAndRunTests_status env repoPath ir ta2 (by simpa using hsucc)

set_option maxRecDepth 2000 in
/-- C5 counterexample: testing flag set, one candidate file, generation
raising for it — the implementer returns one (error) FileChangeResult but
an empty test list: no TestArtifactResult (in particular no `skipped` one)
exists for the failed file, contrary to the claim. -/
theorem failed_file_gets_no_test_artifact :
    ((implementTask implEnvC4 "/repo" taC5).1.toOption.map
      (fun out => (out.implementations.map (fun r => r.status), out.tests))) =
    some (["error"], []) := by decide

set_option maxRecDepth 2000 in
/-- C5 witness: two candidate files with the testing flag set, one
implementation succeeding and one failing. -/
theorem tests_only_for_successful_files_witness :
    ∃ out, (implementTask implEnvC4 "/repo" taC5w).1 = .ok out ∧
      out.tests = (out.implementations.filter
          (fun ir => ir.status == "success")).map
        (fun ir => (generateAndRunTests implEnvC4 "/repo" ir
          { taC5w with repositoryAnalysis := some implEnvC4.repoAnalysis }).1) ∧
      out.tests.length = (out.implementations.filter
        (fun ir => ir.status == "success")).length ∧
      ∀ t ∈ out.tests, t.status = "generated" ∨ t.status = "error" :=
  tests_only_for_successful_files implEnvC4 "/repo" taC5w rfl (by decide)

/-- Traces whose first two events are the analysis and the
task-details update place every `processFile` event strictly after the
update. -/
theorem update_before_processFile (tr : List Effect)
    (h : tr.take 2 = [Effect.analyzeRepo, Effect.updateTaskDetails]) :
    ∀ i p, tr.get? i = some (Effect.processFile p) → 2 ≤ i := by
  intro i p hip
  by_contra hlt
  push_neg at hlt
  have h2 : (tr.take 2).get? i = tr.get? i := List.get?_take hlt
  rw [h, hip] at h2
  interval_cases i <;> simp at h2

/-- C10: `implement_task` mutates its task-details argument by setting the
`repository_analysis` entry — the dictionary after the call is exactly the
input with that entry set, every other entry unchanged — and the update
happens before any candidate file is processed: the trace starts with the
analysis and update events, so every `processFile` event comes after the
update. -/
theorem implement_task_mutation_frame (env : ImplEnv) (repoPath : String)
    (ta : ImplTask) :
    (implementTask env repoPath ta).2.1 =
      { ta with repositoryAnalysis := some env.repoAnalysis } ∧
    (implementTask env repoPath ta).2.1.repositoryAnalysis = some env.repoAnalysis ∧
    (implementTask env repoPath ta).2.1.taskId = ta.taskId ∧
    (implementTask env repoPath ta).2.1.requirements = ta.requirements ∧
    (implementTask env repoPath ta).2.1.testingRequired = ta.testingRequired ∧
    (implementTask env repoPath ta).2.1.rest = ta.rest ∧
    (implementTask env repoPath ta).2.2.take 2 =
      [Effect.analyzeRepo, Effect.updateTaskDetails] ∧
    ∀ i p, (implementTask env repoPath ta).2.2.get? i =
      some (Effect.processFile p) → 2 ≤ i := by
  rcases hl2 : implLoop env { ta with repositoryAnalysis := some env.repoAnalysis }
      (determineFilesToModify env repoPath
        { ta with repositoryAnalysis := some env.repoAnalysis }) with ⟨res, fx⟩
  have htake : (implementTask env repoPath ta).2.2.take 2 =
      [Effect.analyzeRepo, Effect.updateTaskDetails] := by
    cases res <;> simp [implementTask, hl2]
  cases res with
  | error e =>
    refine ⟨?_, ?_, ?_, ?_, ?_, ?_, htake, update_before_processFile _ htake⟩ <;>
      simp [implementTask, hl2]
  | ok irs =>
    refine ⟨?_, ?_, ?_, ?_, ?_, ?_, htake, update_before_processFile _ htake⟩ <;>
      simp [implementTask, hl2]

/-! ## C6 — push before PR creation -/

/-- C6: with a repository handler present, the branch push (with upstream
tracking) is the first collaborator call of `create_pull_request`; when
the push raises, the outcome is an error carrying the failure message and
the PR-creation collaborator is never invoked in that call. -/
theorem push_before_pr_creation (env : PREnv) (taskId : String)
    (td : Option TaskDetails) (ir : ImplOutcome) (sourceBranch : String)
    (hgit : env.gitHandlerPresent = true) :
    (prCreatePullRequest env taskId td ir sourceBranch).2.head? =
      some (Effect.gitPush sourceBranch true) ∧
    ∀ e, env.pushRes = .error e →
      (prCreatePullRequest env taskId td ir sourceBranch).1.status = "error" ∧
      (prCreatePullRequest env taskId td ir sourceBranch).1.message =
        some ("Failed to push changes: " ++ e) ∧
      ∀ t d, Effect.createPR t d ∉
        (prCreatePullRequest env taskId td ir sourceBranch).2 := by
  cases hp : env.pushRes with
  | error e =>
    refine ⟨by simp [prCreatePullRequest, hgit, hp], ?_⟩
    intro e' he'
    injection he' with he'
    subst he'
    refine ⟨by simp [prCreatePullRequest, hgit, hp],
      by simp [prCreatePullRequest, hgit, hp], ?_⟩
    intro t d hmem
    simp [prCreatePullRequest, hgit, hp] at hmem
  | ok u =>
    refine ⟨?_, ?_⟩
    · simp [prCreatePullRequest, hgit, hp]
    · intro e he
      simp at he

/-- C6 witness: a push that fails, with the handler present. -/
theorem push_before_pr_creation_witness :
    (prCreatePullRequest prEnvC6 "42" none irEmpty "task/42").2.head? =
      some (Effect.gitPush "task/42" true) ∧
    ∀ e, prEnvC6.pushRes = .error e →
      (prCreatePullRequest prEnvC6 "42" none irEmpty "task/42").1.status = "error" ∧
      (prCreatePullRequest prEnvC6 "42" none irEmpty "task/42").1.message =
        some ("Failed to push changes: " ++ e) ∧
      ∀ t d, Effect.createPR t d ∉
        (prCreatePullRequest prEnvC6 "42" none irEmpty "task/42").2 :=
  push_before_pr_creation prEnvC6 "42" none irEmpty "task/42" rfl

/-! ## C1 / C2 / C3 — orchestrator -/

/-- Every normal (non-raising) exit of the `process_task` body carries one
of the three statuses, the task id and the elapsed-time string. -/
theorem processTaskBody_ok_shape (env : OrchEnv) (taskId : String)
    (r : PipelineResult) (fx : List Effect)
    (h : processTaskBody env taskId = (.ok r, fx)) :
    (r.status = "completed" ∨ r.status = "clarification_requested" ∨
      r.status = "error") ∧
    r.taskId = taskId ∧ r.processingTime = env.elapsedStr := by
  unfold processTaskBody at h
  rcases htp : tpProcessTask env.tp taskId with ⟨tres, tfx⟩
  rw [htp] at h
  rcases tres with e | taskResult
  · simp at h
  · simp only at h
    by_cases hs : taskResult.status = "clarification_requested"
    · rw [if_pos hs] at h
      simp only [Prod.mk.injEq, Except.ok.injEq] at h
      obtain ⟨h1, -⟩ := h
      subst h1
      exact ⟨Or.inr (Or.inl rfl), rfl, rfl⟩
    · rw [if_neg hs] at h
      by_cases hurl : (taskResult.repository.getD {}).url.getD "" = ""
      · rw [if_pos hurl] at h
        simp only [Prod.mk.injEq, Except.ok.injEq] at h
        obtain ⟨h1, -⟩ := h
        subst h1
        exact ⟨Or.inr (Or.inr rfl), rfl, rfl⟩
      · rw [if_neg hurl] at h
        rcases hsetup : setupRepository env
            ((taskResult.repository.getD {}).url.getD "") taskId with ⟨ropt, fx2⟩
        rw [hsetup] at h
        rcases ropt with _ | repoPath
        · simp only [Prod.mk.injEq, Except.ok.injEq] at h
          obtain ⟨h1, -⟩ := h
          subst h1
          exact ⟨Or.inr (Or.inr rfl), rfl, rfl⟩
        · simp only at h
          rcases himpl : implementTask env.impl repoPath (toImplTask taskResult)
            with ⟨ires, iupd, fx3⟩
          rw [himpl] at h
          rcases ires with e | implOut
          · simp at h
          · simp only at h
            rcases hcommit : commitChangesIM env taskId with ⟨cres, fx4⟩
            rw [hcommit] at h
            rcases cres with e | commitHash
            · simp at h
            · simp only at h
              rcases hrid : getRepositoryId (taskResult.repository.getD {})
                with e | rid
              · rw [hrid] at h
                simp at h
              · rw [hrid] at h
                simp only [Prod.mk.injEq, Except.ok.injEq] at h
                obtain ⟨h1, -⟩ := h
                subst h1
                exact ⟨Or.inl rfl, rfl, rfl⟩

/-- C1: `process_task` always returns a result dictionary whose status is
`completed`, `clarification_requested` or `error`, carrying the task id
and the elapsed-time measurement; it never raises past its boundary — in
particular, whenever the body raises an exception `e` at any stage, the
result has status `error` with message `Error processing task: e`. -/
theorem process_task_total_contract (env : OrchEnv) (taskId : String) :
    ((processTask env taskId).1.status = "completed" ∨
     (processTask env taskId).1.status = "clarification_requested" ∨
     (processTask env taskId).1.status = "error") ∧
    (processTask env taskId).1.taskId = taskId ∧
    (processTask env taskId).1.processingTime = env.elapsedStr ∧
    ∀ e fx, processTaskBody env taskId = (.error e, fx) →
      (processTask env taskId).1.status = "error" ∧
      (processTask env taskId).1.message =
        some ("Error processing task: " ++ e) := by
  rcases hb : processTaskBody env taskId with ⟨res, fx⟩
  cases res with
  | ok r =>
    have hshape := processTaskBody_ok_shape env taskId r fx hb
    refine ⟨?_, ?_, ?_, ?_⟩
    · simpa [processTask, hb] using hshape.1
    · simpa [processTask, hb] using hshape.2.1
    · simpa [processTask, hb] using hshape.2.2
    · intro e fx' he
      simp at he
  | error e' =>
    have hsimp : (processTask env taskId).1 =
        { status := "error", message := some ("Error processing task: " ++ e'),
          taskId := taskId, processingTime := env.elapsedStr } := by
      simp [processTask, hb]
    refine ⟨by rw [hsimp]; exact Or.inr (Or.inr rfl), by rw [hsimp],
      by rw [hsimp], ?_⟩
    intro e fx' he
    have hee : e' = e := by
      have h1 := congrArg Prod.fst he
      simpa using h1
    subst hee
    exact ⟨by rw [hsimp], by rw [hsimp]⟩

/-- C2: when the analysis yields missing-information items (and the
comment post succeeds), the pipeline posts exactly one consolidated
comment — the bulleted list `_request_clarification` builds — returns
status `clarification_requested`, and performs no repository setup, clone,
branch, implementation, commit, push or PR-creation effect: the whole
trace is that single comment. -/
theorem clarification_single_comment_no_repo_work (env : OrchEnv)
    (taskId : String) (td : TaskDetails)
    (hfetch : env.tp.fetchTask = .ok td)
    (hmissing : checkForMissingInformation td ≠ [])
    (hcomment : env.tp.addCommentRes = .ok ()) :
    (processTask env taskId).1.status = "clarification_requested" ∧
    (processTask env taskId).2 =
      [Effect.addComment (clarificationComment (checkForMissingInformation td))] := by
  have htp : tpProcessTask env.tp taskId =
      (.ok { status := "clarification_requested", taskId := taskId,
             missingInformation := checkForMissingInformation td },
       [Effect.addComment (clarificationComment (checkForMissingInformation td))]) := by
    simp [tpProcessTask, hfetch, hcomment, hmissing]
  constructor
  · simp [processTask, processTaskBody, htp]
  · simp [processTask, processTaskBody, htp]

set_option maxRecDepth 2000 in
/-- C2 witness: the spec's clarification scenario — 11-character
description, no acceptance criteria, no repository. -/
theorem clarification_single_comment_witness :
    (processTask envC2 "7").1.status = "clarification_requested" ∧
    (processTask envC2 "7").2 =
      [Effect.addComment (clarificationComment (checkForMissingInformation tdC2))] :=
  clarification_single_comment_no_repo_work envC2 "7" tdC2 rfl (by decide) rfl

set_option maxRecDepth 4000 in
/-- C3: in the spec's end-to-end scenario — task 42, an adequate
description mentioning src/app.py, acceptance criteria and repository URL
present, every external collaborator succeeding — the analyzer finds
exactly `src/app.py` with no missing information and the pipeline clones,
branches (`task/42`), implements and commits; yet `process_task` returns
status `error`, not `completed`: `_get_repository_id` reaches `re.search`
although orchestrator.py never imports `re`, so the run raises
`NameError: name 're' is not defined`, which the top-level handler
converts into the error result. -/
theorem end_to_end_blocked_by_missing_import :
    (analyzeRequirements tdC3).filesToModify = ["src/app.py"] ∧
    checkForMissingInformation tdC3 = [] ∧
    Effect.createBranch "task/42" ∈ (processTask envC3 "42").2 ∧
    Effect.gitCommit "Implement task #42\n\nImplemented by Azure DevOps AI Agent" ∈
      (processTask envC3 "42").2 ∧
    (processTask envC3 "42").1.status = "error" ∧
    (processTask envC3 "42").1.message =
      some "Error processing task: name 're' is not defined" := by
  decide
